import Mathlib

/-!
Shallow embedding of the ILI9225 LCD driver (`src/libs/ili9225/src/ili9225.c`).

Every driver routine is modelled as a pure function that returns the trace of
observable transport events it performs, in order: control-line changes
(reset, chip-select, register-select, backlight), 16-bit SPI word transmissions
and receptions, millisecond delays, and DMA/interrupt operations.  Values read
back from the chip are supplied as parameters (the simulated chip).  Machine
integers are `Nat` with explicit truncation (via `u16`, and `% 2^32` for the
`unsigned` return of `ili9225_init`) where C integer conversions matter.
-/

set_option maxRecDepth 8192

/-- One observable transport-level action of the driver.  `setCs`/`setRs`/
`setRst`/`setLed` carry the pin level written (`true` = high).  `spiWrite w`
is one 16-bit word transmitted on the serial bus; `spiRead v` is one word
received.  `delayMs n` is a blocking delay.  `dmaStart n` arms and starts the
offload channel for `n` 16-bit elements; `setIrqEnabled i b` enables or
disables the channel interrupt on DMA irq index `i`; `clearPending i` clears
the channel pending bit of DMA irq index `i`; `callback` is one invocation of
the registered user completion callback. -/
inductive Event where
  | setRst : Bool → Event
  | setCs : Bool → Event
  | setRs : Bool → Event
  | setLed : Bool → Event
  | spiWrite : Nat → Event
  | spiRead : Nat → Event
  | delayMs : Nat → Event
  | dmaStart : Nat → Event
  | setIrqEnabled : Nat → Bool → Event
  | clearPending : Nat → Event
  | callback : Event
deriving DecidableEq, Repr

/-- Truncation to a 16-bit unsigned value, as the C cast `(uint16_t)` of an
`int` expression. -/
def u16 (z : Int) : Nat := (z % 65536).toNat

/-- `SCREEN_SIZE_X` from `ili9225.h`. -/
def SCREEN_SIZE_X : Nat := 176

/-- `SCREEN_SIZE_Y` from `ili9225.h`. -/
def SCREEN_SIZE_Y : Nat := 220

/-- `write_register(cmd)`: RS low, CS low, transmit one word, CS high. -/
def write_register (cmd : Nat) : List Event :=
  [.setRs false, .setCs false, .spiWrite cmd, .setCs true]

/-- `write_data(dat)`: RS high, CS low, transmit one word, CS high. -/
def write_data (dat : Nat) : List Event :=
  [.setRs true, .setCs false, .spiWrite dat, .setCs true]

/-- `read_data()`: RS high, CS low, receive one word, CS high.  The value the
simulated chip puts on the bus is the parameter `v` (already 16-bit). -/
def read_data (v : Nat) : List Event :=
  [.setRs true, .setCs false, .spiRead v, .setCs true]

/-- `set_register(reg, dat)`: address phase then data phase. -/
def set_register (reg dat : Nat) : List Event :=
  write_register reg ++ write_data dat

/-- `get_register(reg)` (compiled in when `MK_ILI9225_READ_AVAILABLE`):
address phase then a data-phase read; returns the value read. -/
def get_register (reg : Nat) (v : Nat) : List Event :=
  write_register reg ++ read_data v

/-- The delays issued by a trace, in order. -/
def delays (tr : List Event) : List Nat :=
  tr.filterMap (fun e =>
    match e with
    | .delayMs n => some n
    | _ => none)

/-- Number of `spiRead` events in a trace. -/
def readCount (tr : List Event) : Nat :=
  (tr.filter (fun e =>
    match e with
    | .spiRead _ => true
    | _ => false)).length

/-- Number of user-callback invocations in a trace. -/
def callbackCount (tr : List Event) : Nat :=
  tr.countP (fun e => decide (e = Event.callback))

/-- Register-write parser: scans a trace tracking the register-select level
and the most recent address transmitted with RS low; every word transmitted
with RS high is paired with that pending address.  `regPairsAux pending rs tr`
threads the pending address and the current RS level. -/
def regPairsAux : Option Nat → Bool → List Event → List (Nat × Nat)
  | _, _, [] => []
  | p, _, .setRs b :: tl => regPairsAux p b tl
  | p, rs, .spiWrite w :: tl =>
      if rs then
        match p with
        | some c => (c, w) :: regPairsAux p rs tl
        | none => regPairsAux p rs tl
      else regPairsAux (some w) rs tl
  | p, rs, _ :: tl => regPairsAux p rs tl

/-- All (register, value) pairs written by a trace, in order. -/
def regPairs (tr : List Event) : List (Nat × Nat) :=
  regPairsAux none false tr

/-- All values written to register `r` by a trace, in order. -/
def writesTo (tr : List Event) (r : Nat) : List Nat :=
  (regPairs tr).filterMap (fun p => if p.1 = r then some p.2 else none)

/-- Chip-select session parser: each span from a CS-low write to the next
CS-high write is one session; the session records the data-phase words (words
transmitted while RS is high) inside it.  `sessionsAux rs sel acc tr` threads
the RS level, whether CS is currently asserted, and the words of the open
session (reversed). -/
def sessionsAux : Bool → Bool → List Nat → List Event → List (List Nat)
  | _, _, _, [] => []
  | _, sel, acc, .setRs b :: tl => sessionsAux b sel acc tl
  | rs, _, _, .setCs false :: tl => sessionsAux rs true [] tl
  | rs, sel, acc, .setCs true :: tl =>
      if sel then acc.reverse :: sessionsAux rs false [] tl
      else sessionsAux rs false [] tl
  | rs, sel, acc, .spiWrite w :: tl =>
      if sel && rs then sessionsAux rs sel (w :: acc) tl
      else sessionsAux rs sel acc tl
  | rs, sel, acc, _ :: tl => sessionsAux rs sel acc tl

/-- The data words framed by each chip-select assert/deassert pair of a
trace, in order of the pairs. -/
def dataSessions (tr : List Event) : List (List Nat) :=
  sessionsAux false false [] tr

/-- Skeleton projection: keeps reset-pin and backlight-pin writes, delays and
the register addresses selected (words transmitted while RS is low), dropping
CS/RS toggles and data-phase words.  `skelAux rs tr` threads the RS level. -/
def skelAux : Bool → List Event → List Event
  | _, [] => []
  | _, .setRs b :: tl => skelAux b tl
  | rs, .setRst b :: tl => .setRst b :: skelAux rs tl
  | rs, .setLed b :: tl => .setLed b :: skelAux rs tl
  | rs, .delayMs n :: tl => .delayMs n :: skelAux rs tl
  | rs, .spiWrite w :: tl =>
      if rs then skelAux rs tl else .spiWrite w :: skelAux rs tl
  | rs, _ :: tl => skelAux rs tl

/-- Skeleton of a trace (see `skelAux`). -/
def skeleton (tr : List Event) : List Event := skelAux false tr

/-- The batch of geometry / entry-mode / timing / oscillator / address /
window / gamma register writes of `ili9225_init` (the `cmds` array). -/
def initCmds : List (Nat × Nat) :=
  [(0x01, 0x011C), (0x02, 0x0100), (0x03, 0x1018), (0x07, 0x0000),
   (0x08, 0x0808), (0x0B, 0x1100), (0x0C, 0x0000), (0x0F, 0x0701),
   (0x15, 0x0020), (0x20, 0x0000), (0x21, 0x0000),
   (0x30, 0x0000), (0x31, 0x00DB), (0x32, 0x0000), (0x33, 0x0000),
   (0x34, 0x00DB), (0x35, 0x0000), (0x36, 0x00AF), (0x37, 0x0000),
   (0x38, 0x00DB), (0x39, 0x0000),
   (0x50, 0x0000), (0x51, 0x0808), (0x52, 0x080A), (0x53, 0x000A),
   (0x54, 0x0A08), (0x55, 0x0808), (0x56, 0x0000), (0x57, 0x0A00),
   (0x58, 0x0710), (0x59, 0x0710),
   (0x07, 0x0012)]

/-- The event trace of `ili9225_init`.  `ra` is the compile-time capability
flag `MK_ILI9225_READ_AVAILABLE`; `id` is the value the simulated chip returns
for the driver-code-read register (truncated to 16 bits as
`ili9225_spi_read16` returns `uint16_t`).  The GPIO/SPI peripheral setup block
at the top of the C function configures the host platform only and produces no
transport events. -/
def ili9225_initTrace (ra : Bool) (id : Nat) : List Event :=
  [.setRst true, .setCs true, .setRs false, .delayMs 1,
   .setRst false, .delayMs 10,
   .setRst true, .delayMs 50,
   .setLed false]
  ++ ([0x10, 0x11, 0x12, 0x13, 0x14].flatMap (fun r => set_register r 0x0000))
  ++ [.delayMs 40]
  ++ ([(0x11, 0x0018), (0x12, 0x6121), (0x13, 0x006F), (0x14, 0x495F),
       (0x10, 0x0800)].flatMap (fun p => set_register p.1 p.2))
  ++ [.delayMs 10]
  ++ set_register 0x11 0x103B
  ++ [.delayMs 50]
  ++ (initCmds.flatMap (fun p => set_register p.1 p.2))
  ++ [.delayMs 50]
  ++ set_register 0x07 0x1017
  ++ [.delayMs 50]
  ++ [.setLed true]
  ++ (if ra then get_register 0x00 (id % 65536) else [])

/-- `ili9225_init`: the trace it performs and the `unsigned` value it returns
(`ret = 0x9225; ret -= get_register(...)` in 32-bit unsigned arithmetic when
read capability is compiled in, else `ret = 0`). -/
def ili9225_init (ra : Bool) (id : Nat) : List Event × Nat :=
  (ili9225_initTrace ra id,
   if ra then (0x9225 + (4294967296 - id % 65536)) % 4294967296 else 0)

/-- `ili9225_set_window(hor_start, hor_end, vert_start, vert_end)`: the four
`assert`s guard the window invariant before any register write; a violating
input aborts (modelled as `none`).  Otherwise the four window-bound registers
and the two RAM-address registers are written. -/
def ili9225_set_window (hs he vs ve : Nat) : Option (List Event) :=
  if hs < he ∧ he < SCREEN_SIZE_X ∧ vs < ve ∧ ve < SCREEN_SIZE_Y then
    some (set_register 0x36 he ++ set_register 0x37 hs
      ++ set_register 0x38 ve ++ set_register 0x39 vs
      ++ set_register 0x20 hs ++ set_register 0x21 vs)
  else none

/-- `ili9225_set_address(x, y)`: writes the two RAM-address registers. -/
def ili9225_set_address (x y : Nat) : List Event :=
  set_register 0x20 x ++ set_register 0x21 y

/-- `ili9225_write_pixels(pixels, nmemb)`: the `assert`s reject a null buffer
or a zero count (modelled as `none` on the empty list); otherwise select the
GRAM register, then stream the whole buffer in one chip-select span with RS
high. -/
def ili9225_write_pixels (pixels : List Nat) : Option (List Event) :=
  if pixels = [] then none
  else some (write_register 0x22 ++ [.setRs true, .setCs false]
    ++ pixels.map Event.spiWrite ++ [.setCs true])

/-- `ili9225_write_pixels_start()`: select the GRAM register and leave CS
asserted with RS high. -/
def ili9225_write_pixels_start : List Event :=
  write_register 0x22 ++ [.setRs true, .setCs false]

/-- `ili9225_write_pixels_end()`: deassert CS. -/
def ili9225_write_pixels_end : List Event := [.setCs true]

/-- `ili9225_fill_rect(x, y, w, h, color)`: entry mode, the window bounds
(`y`-axis direct, `x`-axis inverted through `219 - ·`), the RAM address, then
one GRAM burst of `w*h` copies of `color` in a single chip-select span.
Arguments are `uint8_t` (so `w*h < 65536` and the `uint16_t` loop counter runs
exactly `w*h` times); window values are `int` expressions truncated to
`uint16_t` at the call, hence `u16`. -/
def ili9225_fill_rect (x y w h color : Nat) : List Event :=
  set_register 0x03 0x1018
  ++ set_register 0x36 (u16 ((y : Int) + (h : Int) - 1))
  ++ set_register 0x37 y
  ++ set_register 0x38 (u16 (219 - (x : Int)))
  ++ set_register 0x39 (u16 (219 - ((x : Int) + (w : Int) - 1)))
  ++ set_register 0x20 y
  ++ set_register 0x21 (u16 (219 - (x : Int)))
  ++ write_register 0x22
  ++ [.setRs true, .setCs false]
  ++ (List.replicate (w * h) color).map Event.spiWrite
  ++ [.setCs true]

/-- `ili9225_fill(color)`: full-screen fill. -/
def ili9225_fill (color : Nat) : List Event :=
  ili9225_fill_rect 0 0 220 176 color

/-- `ili9225_pixel(x, y, color)`: writes the RAM-address registers (first one
gets `y`, second one gets `219 - x`) and then one GRAM data word. -/
def ili9225_pixel (x y color : Nat) : List Event :=
  set_register 0x20 y
  ++ set_register 0x21 (u16 (219 - (x : Int)))
  ++ set_register 0x22 color

/-- `ili9225_blit(fbuf, x, y, w, h)`: same window programming as
`ili9225_fill_rect`, then one GRAM burst of the first `w*h` words of the
buffer in a single chip-select span. -/
def ili9225_blit (fbuf : List Nat) (x y w h : Nat) : List Event :=
  set_register 0x03 0x1018
  ++ set_register 0x36 (u16 ((y : Int) + (h : Int) - 1))
  ++ set_register 0x37 y
  ++ set_register 0x38 (u16 (219 - (x : Int)))
  ++ set_register 0x39 (u16 (219 - ((x : Int) + (w : Int) - 1)))
  ++ set_register 0x20 y
  ++ set_register 0x21 (u16 (219 - (x : Int)))
  ++ write_register 0x22
  ++ [.setRs true, .setCs false]
  ++ (fbuf.take (w * h)).map Event.spiWrite
  ++ [.setCs true]

/-- `DMA_IRQ_0` of the RP2040 SDK (irq number 11). -/
def DMA_IRQ_0 : Nat := 11

/-- `DMA_IRQ_1` of the RP2040 SDK (irq number 12). -/
def DMA_IRQ_1 : Nat := 12

/-- `ili9225_dma_write(data, len)`: opens the transfer session exactly as the
synchronous path does, then arms and starts the offload channel for `len`
16-bit elements and returns immediately. -/
def ili9225_dma_write (data : List Nat) : List Event :=
  ili9225_write_pixels_start ++ [.dmaStart data.length]

/-- `_ili9225_dma_finish_callback`: the completion interrupt handler.  It
closes the session (`ili9225_write_pixels_end`), then, for the registered irq
line, re-enables the channel interrupt (the source calls
`dma_channel_set_irq0_enabled` on both branches) and clears that line's
channel pending bit, and finally invokes the registered user callback; any
other `dma_irq` value returns early without a callback. -/
def dma_finish_isr (dmaIrq : Nat) : List Event :=
  ili9225_write_pixels_end
  ++ (if dmaIrq = DMA_IRQ_0 then
        [.setIrqEnabled 0 true, .clearPending 0, .callback]
      else if dmaIrq = DMA_IRQ_1 then
        [.setIrqEnabled 0 true, .clearPending 1, .callback]
      else [])

/-- One completed asynchronous transfer: `ili9225_dma_write` arms the channel,
the channel streams every buffer word into the SPI data register, and the
completion interrupt then runs `_ili9225_dma_finish_callback`. -/
def dma_completed_transfer (data : List Nat) (dmaIrq : Nat) : List Event :=
  ili9225_dma_write data ++ data.map Event.spiWrite ++ dma_finish_isr dmaIrq

/-- Streaming a buffer while CS is asserted and RS is high appends the words
to the open session. -/
lemma sessionsAux_append_writes (ps : List Nat) (acc : List Nat)
    (tl : List Event) :
    sessionsAux true true acc (ps.map Event.spiWrite ++ tl) =
      sessionsAux true true (ps.reverse ++ acc) tl := by
  induction ps generalizing acc with
  | nil => simp
  | cons hd t ih => simp [sessionsAux, ih]

/-- Data words transmitted after a register selection all pair with that
register. -/
lemma regPairsAux_burst (c : Nat) (ps : List Nat) (tl : List Event) :
    regPairsAux (some c) true (ps.map Event.spiWrite ++ tl) =
      ps.map (fun w => (c, w)) ++ regPairsAux (some c) true tl := by
  induction ps with
  | nil => simp
  | cons hd t ih => simp [regPairsAux, ih]

/-- Streamed pixel words are not callback invocations. -/
lemma callbackCount_spiWrites (ps : List Nat) :
    callbackCount (ps.map Event.spiWrite) = 0 := by
  induction ps with
  | nil => rfl
  | cons hd t ih => simp [callbackCount, List.countP_cons]

/-- `u16` is the identity (up to `Int.toNat`) on in-range values. -/
lemma u16_eq_toNat (z : Int) (h0 : 0 ≤ z) (h1 : z < 65536) :
    u16 z = z.toNat := by
  unfold u16
  rw [Int.emod_eq_of_lt h0 h1]

/-- Register writes performed by the common rectangle trace shared by
`ili9225_fill_rect` and `ili9225_blit`: the seven window/address registers in
order, then the GRAM burst. -/
lemma regPairs_rect_trace (v36 v37 v38 v39 v20 v21 : Nat)
    (burst : List Nat) :
    regPairs (set_register 0x03 0x1018
      ++ set_register 0x36 v36
      ++ set_register 0x37 v37
      ++ set_register 0x38 v38
      ++ set_register 0x39 v39
      ++ set_register 0x20 v20
      ++ set_register 0x21 v21
      ++ write_register 0x22
      ++ [.setRs true, .setCs false]
      ++ burst.map Event.spiWrite
      ++ [.setCs true]) =
    [(0x03, 0x1018), (0x36, v36), (0x37, v37), (0x38, v38), (0x39, v39),
     (0x20, v20), (0x21, v21)] ++ burst.map (fun w => (0x22, w)) := by
  simp only [set_register, write_register, write_data, List.cons_append,
    List.append_assoc, List.nil_append, regPairs]
  simp [regPairsAux, regPairsAux_burst]

/-- Chip-select data sessions of the common rectangle trace: one empty
command session and one one-word data session per register, then the GRAM
burst as a single session. -/
lemma dataSessions_rect_trace (v36 v37 v38 v39 v20 v21 : Nat)
    (burst : List Nat) :
    dataSessions (set_register 0x03 0x1018
      ++ set_register 0x36 v36
      ++ set_register 0x37 v37
      ++ set_register 0x38 v38
      ++ set_register 0x39 v39
      ++ set_register 0x20 v20
      ++ set_register 0x21 v21
      ++ write_register 0x22
      ++ [.setRs true, .setCs false]
      ++ burst.map Event.spiWrite
      ++ [.setCs true]) =
    [[], [0x1018], [], [v36], [], [v37], [], [v38], [], [v39], [], [v20],
     [], [v21], [], burst] := by
  simp only [set_register, write_register, write_data, List.cons_append,
    List.append_assoc, List.nil_append, dataSessions]
  simp [sessionsAux, sessionsAux_append_writes]

/-- A GRAM burst paired with register `c` contributes nothing to the writes
of a different register `r`. -/
lemma writes_burst_none (c r : Nat) (h : ¬c = r) (ps : List Nat) :
    (ps.map (fun w => (c, w))).filterMap
      (fun p => if p.1 = r then some p.2 else none) = [] := by
  induction ps with
  | nil => rfl
  | cons hd t ih => simp [List.filterMap_cons, h, ih]

/-- Claim C7: `set_register(addr, value)` is `write_register(addr)` — RS low,
CS asserted, one word, CS deasserted — followed by `write_data(value)` with RS
high, so CS toggles high between the address phase and the data phase and each
phase transmits exactly one 16-bit word. -/
theorem set_register_framing (addr value : Nat) :
    set_register addr value =
      [Event.setRs false, Event.setCs false, Event.spiWrite addr,
       Event.setCs true,
       Event.setRs true, Event.setCs false, Event.spiWrite value,
       Event.setCs true] ∧
    dataSessions (set_register addr value) = [[], [value]] ∧
    regPairs (set_register addr value) = [(addr, value)] := by
  refine ⟨rfl, ?_, ?_⟩ <;>
    simp [set_register, write_register, write_data, dataSessions,
      sessionsAux, regPairs, regPairsAux]

/-- Claim C1: `ili9225_init` executes the documented startup sequence in
order — idle pins then 1 ms delay, assert reset then 10 ms, release reset then
50 ms, backlight off, zero the five power-control registers then 40 ms,
program the power-control registers with operating values then 10 ms, enable
automatic boosting then 50 ms, one batch of geometry/entry-mode/timing/
oscillator/address/window/gamma register writes then 50 ms, display on then
50 ms, backlight on — issuing delays of 1, 10, 50, 40, 10, 50, 50 and 50 ms
in exactly that order, for either build and any chip response. -/
theorem init_sequence (ra : Bool) (id : Nat) :
    (ili9225_initTrace ra id).take 4 =
      [Event.setRst true, Event.setCs true, Event.setRs false,
       Event.delayMs 1] ∧
    skeleton (ili9225_initTrace ra id) =
      [Event.setRst true, Event.delayMs 1,
       Event.setRst false, Event.delayMs 10,
       Event.setRst true, Event.delayMs 50,
       Event.setLed false,
       Event.spiWrite 0x10, Event.spiWrite 0x11, Event.spiWrite 0x12,
       Event.spiWrite 0x13, Event.spiWrite 0x14,
       Event.delayMs 40,
       Event.spiWrite 0x11, Event.spiWrite 0x12, Event.spiWrite 0x13,
       Event.spiWrite 0x14, Event.spiWrite 0x10,
       Event.delayMs 10,
       Event.spiWrite 0x11,
       Event.delayMs 50,
       Event.spiWrite 0x01, Event.spiWrite 0x02, Event.spiWrite 0x03,
       Event.spiWrite 0x07, Event.spiWrite 0x08, Event.spiWrite 0x0B,
       Event.spiWrite 0x0C, Event.spiWrite 0x0F, Event.spiWrite 0x15,
       Event.spiWrite 0x20, Event.spiWrite 0x21, Event.spiWrite 0x30,
       Event.spiWrite 0x31, Event.spiWrite 0x32, Event.spiWrite 0x33,
       Event.spiWrite 0x34, Event.spiWrite 0x35, Event.spiWrite 0x36,
       Event.spiWrite 0x37, Event.spiWrite 0x38, Event.spiWrite 0x39,
       Event.spiWrite 0x50, Event.spiWrite 0x51, Event.spiWrite 0x52,
       Event.spiWrite 0x53, Event.spiWrite 0x54, Event.spiWrite 0x55,
       Event.spiWrite 0x56, Event.spiWrite 0x57, Event.spiWrite 0x58,
       Event.spiWrite 0x59, Event.spiWrite 0x07,
       Event.delayMs 50,
       Event.spiWrite 0x07,
       Event.delayMs 50,
       Event.setLed true]
      ++ (if ra then [Event.spiWrite 0x00] else []) ∧
    delays (ili9225_initTrace ra id) = [1, 10, 50, 40, 10, 50, 50, 50] := by
  cases ra <;> exact ⟨rfl, rfl, rfl⟩

/-- Claim C2: with read capability compiled in, `ili9225_init` returns the
32-bit unsigned difference `0x9225 - id` between the expected identification
constant and the value read back, so the result is zero iff the chip reports
`0x9225`, and a mismatch yields the non-zero difference (`0x9225 - id` when
`id ≤ 0x9225`, the two's-complement wrap otherwise). -/
theorem init_id_check (id : Nat) (h : id < 65536) :
    ((ili9225_init true id).2 = 0 ↔ id = 0x9225) ∧
    (id ≤ 0x9225 → (ili9225_init true id).2 = 0x9225 - id) ∧
    (0x9225 < id → (ili9225_init true id).2 = 4294967296 - (id - 0x9225)) ∧
    readCount (ili9225_initTrace true id) = 1 := by
  refine ⟨?_, ?_, ?_, rfl⟩ <;> simp only [ili9225_init, if_true] <;> omega

/-- Witness for `init_id_check` at `id = 0x9224`: the result is the numeric
difference `1`. -/
theorem init_id_check_witness : (ili9225_init true 0x9224).2 = 1 := by
  have h := (init_id_check 0x9224 (by norm_num)).2.1 (by norm_num)
  simpa using h

/-- Claim C10: when the build lacks read capability (the default
`MK_ILI9225_READ_AVAILABLE = 0`), `ili9225_init` returns 0 unconditionally and
reads nothing back, whatever the chip would answer. -/
theorem init_no_read (id : Nat) :
    (ili9225_init false id).2 = 0 ∧
    readCount (ili9225_initTrace false id) = 0 :=
  ⟨rfl, rfl⟩

/-- Claim C5: for every non-null buffer and positive count,
`ili9225_write_pixels` performs exactly one chip-select assert/deassert pair
framing exactly the buffer's words as data-phase transmissions (the preceding
GRAM register selection frames no data word). -/
theorem write_pixels_single_session (pixels : List Nat) (h : pixels ≠ []) :
    (ili9225_write_pixels pixels).map dataSessions = some [[], pixels] := by
  rw [ili9225_write_pixels, if_neg h]
  simp [dataSessions, write_register, sessionsAux, sessionsAux_append_writes]

/-- Witness for `write_pixels_single_session` on the three-word buffer
`[7, 8, 9]`. -/
theorem write_pixels_single_session_witness :
    (ili9225_write_pixels [7, 8, 9]).map dataSessions = some [[], [7, 8, 9]] :=
  write_pixels_single_session [7, 8, 9] (by decide)

/-- Claim C4: `ili9225_set_window` rejects (fatally, before any register
write) every input violating
`hor_start < hor_end < SCREEN_SIZE_X ∧ vert_start < vert_end < SCREEN_SIZE_Y`,
and on valid input writes the four window-bound registers and resets the
address pointer to the window's start corner. -/
theorem set_window_guard (hs he vs ve : Nat) :
    (¬(hs < he ∧ he < SCREEN_SIZE_X ∧ vs < ve ∧ ve < SCREEN_SIZE_Y) →
      ili9225_set_window hs he vs ve = none) ∧
    (hs < he → he < SCREEN_SIZE_X → vs < ve → ve < SCREEN_SIZE_Y →
      ∃ tr, ili9225_set_window hs he vs ve = some tr ∧
        regPairs tr = [(0x36, he), (0x37, hs), (0x38, ve), (0x39, vs),
                       (0x20, hs), (0x21, vs)]) := by
  constructor
  · intro hbad
    rw [ili9225_set_window, if_neg hbad]
  · intro h1 h2 h3 h4
    rw [ili9225_set_window, if_pos ⟨h1, h2, h3, h4⟩]
    refine ⟨_, rfl, ?_⟩
    simp [regPairs, set_register, write_register, write_data, regPairsAux]

/-- Witness for `set_window_guard`: the out-of-order window `(5,4,0,1)` is
rejected; the valid window `(0,10,0,20)` programs the six registers. -/
theorem set_window_guard_witness :
    ili9225_set_window 5 4 0 1 = none ∧
    (∃ tr, ili9225_set_window 0 10 0 20 = some tr ∧
      regPairs tr = [(0x36, 10), (0x37, 0), (0x38, 20), (0x39, 0),
                     (0x20, 0), (0x21, 0)]) :=
  ⟨(set_window_guard 5 4 0 1).1 (by decide),
   (set_window_guard 0 10 0 20).2 (by decide) (by decide) (by decide)
     (by decide)⟩

/-- Claim C3: for every rectangle inside the 176×220 screen,
`ili9225_fill_rect` and `ili9225_blit` write `219 - x` to the first
vertical-window register (0x38) and `219 - (x + w - 1)` to the second (0x39):
the fixed coordinate inversion of the x axis. -/
theorem rect_x_axis_inversion (x y w h color : Nat) (fbuf : List Nat)
    (hxw : x + w ≤ 220) (hw : 1 ≤ w) :
    writesTo (ili9225_fill_rect x y w h color) 0x38 = [219 - x] ∧
    writesTo (ili9225_fill_rect x y w h color) 0x39 = [219 - (x + w - 1)] ∧
    writesTo (ili9225_blit fbuf x y w h) 0x38 = [219 - x] ∧
    writesTo (ili9225_blit fbuf x y w h) 0x39 = [219 - (x + w - 1)] := by
  have hx : x ≤ 219 := by omega
  have h38 : u16 (219 - (x : Int)) = 219 - x := by
    rw [u16_eq_toNat _ (by omega) (by omega)]
    omega
  have h39 : u16 (219 - ((x : Int) + (w : Int) - 1)) = 219 - (x + w - 1) := by
    rw [u16_eq_toNat _ (by omega) (by omega)]
    omega
  refine ⟨?_, ?_, ?_, ?_⟩
  · simp only [writesTo, ili9225_fill_rect, regPairs_rect_trace,
      List.filterMap_append]
    rw [writes_burst_none 0x22 0x38 (by decide)]
    simp [h38]
  · simp only [writesTo, ili9225_fill_rect, regPairs_rect_trace,
      List.filterMap_append]
    rw [writes_burst_none 0x22 0x39 (by decide)]
    simp [h39]
  · simp only [writesTo, ili9225_blit, regPairs_rect_trace,
      List.filterMap_append]
    rw [writes_burst_none 0x22 0x38 (by decide)]
    simp [h38]
  · simp only [writesTo, ili9225_blit, regPairs_rect_trace,
      List.filterMap_append]
    rw [writes_burst_none 0x22 0x39 (by decide)]
    simp [h39]

/-- Witness for `rect_x_axis_inversion` at the rectangle `(2,3)` of size
`4×5`: register 0x38 gets `217 = 219 - 2` and register 0x39 gets
`214 = 219 - 5`. -/
theorem rect_x_axis_inversion_witness :
    writesTo (ili9225_fill_rect 2 3 4 5 9) 0x38 = [217] ∧
    writesTo (ili9225_fill_rect 2 3 4 5 9) 0x39 = [214] ∧
    writesTo (ili9225_blit [1] 2 3 4 5) 0x38 = [217] ∧
    writesTo (ili9225_blit [1] 2 3 4 5) 0x39 = [214] := by
  have hmain := rect_x_axis_inversion 2 3 4 5 9 [1] (by decide) (by decide)
  simpa using hmain

/-- Claim C8: `ili9225_fill color` is exactly
`ili9225_fill_rect 0 0 220 176 color`, whose trace contains, besides the
one-word register-programming sessions, a single chip-select session holding
exactly `220 * 176` data words all equal to `color`. -/
theorem fill_full_screen (color : Nat) :
    ili9225_fill color = ili9225_fill_rect 0 0 220 176 color ∧
    dataSessions (ili9225_fill_rect 0 0 220 176 color) =
      [[], [0x1018], [], [175], [], [0], [], [219], [], [0], [], [0], [],
       [219], [], List.replicate (220 * 176) color] := by
  refine ⟨rfl, ?_⟩
  simp only [ili9225_fill_rect, dataSessions_rect_trace]
  norm_num [u16]
  decide

/-- Claim C9: `ili9225_set_address (x, y)` writes `x` then `y` to the two
RAM-address registers with no inversion, while `ili9225_pixel (x, y, color)`
writes `y` and `219 - x`, so for the same `(x, y)` the two helpers position
the address pointer differently. -/
theorem address_conventions (x y color : Nat) (hx : x ≤ 219) :
    regPairs (ili9225_set_address x y) = [(0x20, x), (0x21, y)] ∧
    regPairs (ili9225_pixel x y color) =
      [(0x20, y), (0x21, 219 - x), (0x22, color)] ∧
    ¬(writesTo (ili9225_set_address x y) 0x20 =
        writesTo (ili9225_pixel x y color) 0x20 ∧
      writesTo (ili9225_set_address x y) 0x21 =
        writesTo (ili9225_pixel x y color) 0x21) := by
  have h21 : u16 (219 - (x : Int)) = 219 - x := by
    rw [u16_eq_toNat _ (by omega) (by omega)]
    omega
  refine ⟨?_, ?_, ?_⟩
  · simp [regPairs, ili9225_set_address, set_register, write_register,
      write_data, regPairsAux]
  · simp [regPairs, ili9225_pixel, set_register, write_register, write_data,
      regPairsAux, h21]
  · simp [writesTo, regPairs, ili9225_set_address, ili9225_pixel,
      set_register, write_register, write_data, regPairsAux, h21]
    omega

/-- Witness for `address_conventions` at `(x, y) = (1, 2)`. -/
theorem address_conventions_witness :
    regPairs (ili9225_set_address 1 2) = [(0x20, 1), (0x21, 2)] ∧
    regPairs (ili9225_pixel 1 2 5) = [(0x20, 2), (0x21, 218), (0x22, 5)] ∧
    ¬(writesTo (ili9225_set_address 1 2) 0x20 =
        writesTo (ili9225_pixel 1 2 5) 0x20 ∧
      writesTo (ili9225_set_address 1 2) 0x21 =
        writesTo (ili9225_pixel 1 2 5) 0x21) := by
  have hmain := address_conventions 1 2 5 (by decide)
  simpa using hmain

/-- Claim C6: a completed `ili9225_dma_write` on a registered DMA irq line
runs the handler exactly once: the trace ends with chip-select deassertion,
interrupt re-enable, the pending-flag clear and then the single user-callback
invocation — all strictly after the last streamed word — and the streamed
words form one chip-select data session. -/
theorem dma_single_callback (data : List Nat) (dmaIrq : Nat)
    (h : dmaIrq = DMA_IRQ_0 ∨ dmaIrq = DMA_IRQ_1) :
    callbackCount (dma_completed_transfer data dmaIrq) = 1 ∧
    dataSessions (dma_completed_transfer data dmaIrq) = [[], data] ∧
    ∃ ch, dma_completed_transfer data dmaIrq =
      (ili9225_dma_write data ++ data.map Event.spiWrite)
        ++ [Event.setCs true, Event.setIrqEnabled 0 true,
            Event.clearPending ch, Event.callback] := by
  rcases h with h | h <;> subst h <;> refine ⟨?_, ?_, ?_⟩
  · simp [dma_completed_transfer, ili9225_dma_write,
      ili9225_write_pixels_start, ili9225_write_pixels_end, dma_finish_isr,
      write_register, callbackCount, List.countP_append,
      callbackCount_spiWrites, DMA_IRQ_0, DMA_IRQ_1]
  · simp [dma_completed_transfer, ili9225_dma_write,
      ili9225_write_pixels_start, ili9225_write_pixels_end, dma_finish_isr,
      write_register, dataSessions, sessionsAux, sessionsAux_append_writes,
      DMA_IRQ_0, DMA_IRQ_1]
  · exact ⟨0, by simp [dma_completed_transfer, dma_finish_isr,
      ili9225_write_pixels_end, DMA_IRQ_0, DMA_IRQ_1]⟩
  · simp [dma_completed_transfer, ili9225_dma_write,
      ili9225_write_pixels_start, ili9225_write_pixels_end, dma_finish_isr,
      write_register, callbackCount, List.countP_append,
      callbackCount_spiWrites, DMA_IRQ_0, DMA_IRQ_1]
  · simp [dma_completed_transfer, ili9225_dma_write,
      ili9225_write_pixels_start, ili9225_write_pixels_end, dma_finish_isr,
      write_register, dataSessions, sessionsAux, sessionsAux_append_writes,
      DMA_IRQ_0, DMA_IRQ_1]
  · exact ⟨1, by simp [dma_completed_transfer, dma_finish_isr,
      ili9225_write_pixels_end, DMA_IRQ_0, DMA_IRQ_1]⟩

/-- Witness for `dma_single_callback`: a completed two-word transfer on
`DMA_IRQ_0`. -/
theorem dma_single_callback_witness :
    callbackCount (dma_completed_transfer [3, 4] DMA_IRQ_0) = 1 ∧
    dataSessions (dma_completed_transfer [3, 4] DMA_IRQ_0) = [[], [3, 4]] ∧
    ∃ ch, dma_completed_transfer [3, 4] DMA_IRQ_0 =
      (ili9225_dma_write [3, 4] ++ [3, 4].map Event.spiWrite)
        ++ [Event.setCs true, Event.setIrqEnabled 0 true,
            Event.clearPending ch, Event.callback] :=
  dma_single_callback [3, 4] DMA_IRQ_0 (Or.inl rfl)
